import Mathlib

/-!
Verification of the go-seele node orchestration core (package node) and the
reward-table lookup, as a shallow embedding in Lean.

The embedding mirrors the Go source: machine effects (calling a Start or
Stop hook of a service, stopping the p2p transport, registering an RPC
namespace, binding a listener) are recorded as an ordered event trace, and
environment nondeterminism (does the transport start, does a listener bind)
is an explicit boolean argument.
-/

namespace GoSeele

/-- Errors of the node package. Sentinel errors mirror the package-level
error variables; `svc` stands for an arbitrary service-supplied error value;
`regFailed` is the error the RPC dispatch layer returns when a namespace is
registered twice; `stopAgg` mirrors `StopError`, keyed by service identity. -/
inductive Err where
  | nodeRunning
  | nodeStopped
  | serviceStartFailed
  | serviceStopFailed
  | svc (code : Nat)
  | regFailed (ns : String)
  | listenJSONFailed
  | listenHTTPFailed
  | stopAgg (m : List (Nat × Err))

/-- Observable events emitted by the lifecycle operations, in program order.
`svcStart i` and `svcStop i` are invocations of the Start and Stop hooks of
the service at index `i` of the registration list; `regJSON`, `regHTTP`
record a successful namespace registration on the raw-socket and HTTP RPC
server respectively; `jsonListen` and `httpServe` mark the point at which
the corresponding listener is bound and begins accepting connections. -/
inductive Event where
  | transportStart
  | transportStop
  | svcStart (i : Nat)
  | svcStop (i : Nat)
  | regJSON (ns : String)
  | regHTTP (ns : String)
  | jsonListen
  | httpServe
deriving DecidableEq

/-- An RPC API entry: mirrors rpc.API with its Namespace and method-set
receiver (the receiver object is abstracted to a numeric identifier). -/
structure API where
  Namespace : String
  Service : Nat
deriving DecidableEq

/-- Behavioural model of a registered service: its protocol list, its API
list, whether its Start and Stop hooks fail (and with what error), and its
identity key (mirrors reflect.TypeOf, used as the StopError map key). -/
structure Service where
  key : Nat
  protocols : List Nat
  apis : List API
  startErr : Option Err
  stopErr : Option Err

/-- The p2p configuration handed to the transport (contents are external to
this package; abstracted to an opaque-looking payload). -/
structure P2PConfig where
  val : Nat
deriving DecidableEq

/-- Node configuration, with the fields the node package reads. -/
structure Config where
  p2p : P2PConfig
  rpcAddr : String
  httpAddr : String
  httpWhiteHost : List String
  httpCors : List String

/-- The running p2p server: its config and the aggregated protocol list. -/
structure Server where
  config : P2PConfig
  protocols : List Nat

/-- The node: mirrors the Node struct fields that carry state (the logger
and the mutex are omitted; the embedding is sequential, matching the fact
that all lifecycle operations run under one exclusive lock). -/
structure Node where
  config : Config
  serverConfig : P2PConfig
  server : Option Server
  services : List Service

/-- Mirrors New: builds an idle node with an empty service list. (The
copy semantics of the config argument are modelled separately below with
explicit Go reference semantics.) -/
def New (conf : Config) : Node :=
  { config := conf
    serverConfig := { val := 0 }
    server := none
    services := [] }

/-- Mirrors Node.Register: refuses with ErrNodeRunning when the server is
live, otherwise appends the service. -/
def Node.Register (n : Node) (s : Service) : Node × Option Err :=
  if n.server.isSome then (n, some Err.nodeRunning)
  else ({ n with services := n.services ++ [s] }, none)

/-- Mirrors the RegisterName loop shared by both RPC bootstrap functions:
registers each namespace in order onto the set `regd`, failing on a
duplicate namespace (the failure mode of the external dispatch layer),
emitting one registration event per successful registration. -/
def registerAll (mk : String → Event) (apis : List API) (regd : List String) :
    List Event × List String × Option Err :=
  match apis with
  | [] => ([], regd, none)
  | a :: rest =>
    if a.Namespace ∈ regd then
      ([], regd, some (Err.regFailed a.Namespace))
    else
      let p := registerAll mk rest (regd ++ [a.Namespace])
      (mk a.Namespace :: p.1, p.2)

/-- Mirrors Node.startJSONRPC: registers every namespace on a fresh server,
then binds the raw-socket listener (success modelled by `jOk`) and starts
the accept loop. The receiver is dropped: in Go it is used only for the
logger and the listen address, which the bind boolean absorbs. -/
def startJSONRPC (apis : List API) (jOk : Bool) :
    List Event × Option Err :=
  match registerAll Event.regJSON apis [] with
  | (evs, _, some e) => (evs, some e)
  | (evs, _, none) =>
    if jOk then (evs ++ [Event.jsonListen], none)
    else (evs, some Err.listenJSONFailed)

/-- Mirrors Node.startHTTPRPC: registers every namespace on a fresh HTTP
server, then binds the HTTP listener (success modelled by `hOk`) and
serves. The receiver is dropped as in `startJSONRPC`. -/
def startHTTPRPC (apis : List API)
    (_whitehosts _corsList : List String) (hOk : Bool) :
    List Event × Option Err :=
  match registerAll Event.regHTTP apis [] with
  | (evs, _, some e) => (evs, some e)
  | (evs, _, none) =>
    if hOk then (evs ++ [Event.httpServe], none)
    else (evs, some Err.listenHTTPFailed)

/-- The aggregate API set: the API lists of all services concatenated in
registration order (the apis accumulation loop at the head of startRPC). -/
def aggApis (services : List Service) : List API :=
  (services.map (fun s => s.apis)).flatten

/-- Mirrors Node.startRPC: aggregates the API lists of all services in
order, then starts the raw-socket RPC and, if that succeeded, the HTTP RPC. -/
def startRPC (services : List Service) (conf : Config)
    (jOk hOk : Bool) : List Event × Option Err :=
  let apis := aggApis services
  match startJSONRPC apis jOk with
  | (evs, some e) => (evs, some e)
  | (evs, none) =>
    let p := startHTTPRPC apis conf.httpWhiteHost conf.httpCors hOk
    (evs ++ p.1, p.2)

/-- Mirrors the service-start loop of Node.Start, with `i` the index of the
head of `rest` in the full registration list: starts each service in order;
when service `i` fails, stops services `0 .. i-1` in the same (forward)
order and surfaces the error of service `i`. -/
def startServicesLoop (i : Nat) (rest : List Service) :
    List Event × Option Err :=
  match rest with
  | [] => ([], none)
  | s :: rest' =>
    match s.startErr with
    | some e =>
      (Event.svcStart i :: (List.range i).map Event.svcStop, some e)
    | none =>
      let p := startServicesLoop (i + 1) rest'
      (Event.svcStart i :: p.1, p.2)

/-- Mirrors Node.Start. `tOk` models whether the p2p transport starts,
`jOk` and `hOk` whether the two listeners bind. Returns the new node, the
returned error, and the emitted event trace. -/
def Node.Start (n : Node) (tOk jOk hOk : Bool) :
    Node × Option Err × List Event :=
  if n.server.isSome then (n, some Err.nodeRunning, [])
  else
    let sc := n.config.p2p
    let running : Server :=
      { config := sc
        protocols := (n.services.map (fun s => s.protocols)).flatten }
    let n1 := { n with serverConfig := sc }
    if tOk then
      match startServicesLoop 0 n.services with
      | (sevs, some e) =>
        (n1, some e, Event.transportStart :: (sevs ++ [Event.transportStop]))
      | (sevs, none) =>
        match startRPC n1.services n1.config jOk hOk with
        | (revs, some e) =>
          (n1, some e,
            Event.transportStart ::
              (sevs ++ revs ++
                (List.range n1.services.length).map Event.svcStop ++
                [Event.transportStop]))
        | (revs, none) =>
          ({ n1 with server := some running }, none,
            Event.transportStart :: (sevs ++ revs))
    else (n1, some Err.serviceStartFailed, [Event.transportStart])

/-- Mirrors a Go map update `m[k] = v` on the StopError service map:
overwrites the entry at `k` if present, otherwise adds one. -/
def stopMapInsert (m : List (Nat × Err)) (k : Nat) (v : Err) :
    List (Nat × Err) :=
  if m.any (fun p => p.1 = k) then
    m.map (fun p => if p.1 = k then (k, v) else p)
  else m ++ [(k, v)]

/-- Mirrors the service-stop loop of Node.Stop: calls the Stop hook of each
service in order, recording each non-nil error in the map `m` keyed by the
identity of the service. -/
def stopLoop (i : Nat) (m : List (Nat × Err)) (rest : List Service) :
    List Event × List (Nat × Err) :=
  match rest with
  | [] => ([], m)
  | s :: rest' =>
    let m' := match s.stopErr with
      | some e => stopMapInsert m s.key e
      | none => m
    let p := stopLoop (i + 1) m' rest'
    (Event.svcStop i :: p.1, p.2)

/-- Mirrors Node.Stop: refuses with ErrNodeStopped when idle; otherwise
stops every service (collecting failures), stops the transport
unconditionally, clears the service list and the server reference, and
returns the aggregate error exactly when the map is non-empty. -/
def Node.Stop (n : Node) : Node × Option Err × List Event :=
  if n.server.isSome then
    let p := stopLoop 0 [] n.services
    let n' := { n with services := [], server := none }
    if p.2.isEmpty then (n', none, p.1 ++ [Event.transportStop])
    else (n', some (Err.stopAgg p.2), p.1 ++ [Event.transportStop])
  else (n, some Err.nodeStopped, [])

/-- Mirrors Node.Restart: Stop; on stop error return it without starting;
otherwise Start and return its outcome. -/
def Node.Restart (n : Node) (tOk jOk hOk : Bool) :
    Node × Option Err × List Event :=
  let s := n.Stop
  match s.2.1 with
  | some e => (s.1, some e, s.2.2)
  | none =>
    let p := s.1.Start tOk jOk hOk
    match p.2.1 with
    | some e => (p.1, some e, s.2.2 ++ p.2.2)
    | none => (p.1, none, s.2.2 ++ p.2.2)

/-- Follows the words of the spec (section 4.1): the composite operation
equals Stop followed by Start; if Stop fails, Start is not attempted and
the stop error is surfaced. Written independently of Node.Restart, for the
refinement claim. -/
def stopThenStartSpec (n : Node) (tOk jOk hOk : Bool) :
    Node × Option Err × List Event :=
  match n.Stop with
  | (n', some e, evs) => (n', some e, evs)
  | (n', none, evs) =>
    let p := n'.Start tOk jOk hOk
    (p.1, p.2.1, evs ++ p.2.2)

/-! ### Go reference semantics of the config copy in New

In Go the caller passes a pointer to a Config whose slice-valued fields
(HTTPWhiteHost, HTTPCors) are slice headers sharing a heap backing array.
`confCopy := *conf` copies the struct value, including the slice headers.
The model below makes the heap explicit: `GoHeap.configs` holds the
heap-allocated Config cells callers hold pointers to, `GoHeap.slices` the
string backing arrays, and a struct field of slice type is an index into
`slices`. -/

/-- A Go slice header, reduced to a reference into the heap of backing
arrays (length and capacity are irrelevant to the claims). -/
structure GoSliceRef where
  idx : Nat
deriving DecidableEq

/-- The Config struct as laid out in Go memory: scalar fields by value,
slice fields as references into the heap. -/
structure GoConfig where
  rpcAddr : String
  httpAddr : String
  httpWhiteHost : GoSliceRef
  httpCors : GoSliceRef

/-- The heap: Config cells addressed by pointer, and string backing arrays
addressed by slice reference. -/
structure GoHeap where
  configs : Nat → GoConfig
  slices : Nat → List String

/-- Dereference a slice. -/
def readSlice (h : GoHeap) (r : GoSliceRef) : List String :=
  h.slices r.idx

/-- In-place mutation of one element of a slice backing array, as performed
by a Go assignment `s[i] = v`. -/
def writeSliceElem (h : GoHeap) (r : GoSliceRef) (i : Nat) (v : String) :
    GoHeap :=
  { h with
    slices := fun j => if j = r.idx then (h.slices r.idx).set i v
                       else h.slices j }

/-- Mutation of the Config cell the caller holds a pointer to (field
reassignments such as `conf.RPCAddr = v`, or even swapping a slice header
for a fresh one), leaving all backing arrays untouched. -/
def writeCallerConfig (h : GoHeap) (p : Nat) (f : GoConfig → GoConfig) :
    GoHeap :=
  { h with
    configs := fun q => if q = p then f (h.configs q) else h.configs q }

/-- The node side of New: mirrors `confCopy := *conf` — the struct value at
pointer `p` is copied (slice headers included) and stored on the node. -/
structure GoNode where
  config : GoConfig

/-- Mirrors New applied to a caller pointer `p`: the stored config is the
shallow struct copy of the cell at `p`. -/
def NewGo (h : GoHeap) (p : Nat) : GoNode :=
  { config := h.configs p }

/-- The configuration a later Start actually observes: scalar fields from
the stored struct, slice fields dereferenced in the current heap. -/
def GoNode.resolvedConfig (n : GoNode) (h : GoHeap) :
    String × String × List String × List String :=
  (n.config.rpcAddr, n.config.httpAddr,
   readSlice h n.config.httpWhiteHost, readSlice h n.config.httpCors)

/-! ### Reward lookup -/

/-- Modelled from the spec: `GetReward`, `rewardTable`, `blockNumberPerEra`
and `tailReward` live in the pow package, of which only `Test_Reward` is
among the provided sources. Per the spec (section 4.3), the reward is a
pure table lookup by era number: `era = floor(blockNumber /
blockNumberPerEra)`, reward = `rewardTable[era]` for `era <
len(rewardTable)`, else the fixed tail reward. The table, the era length
and the tail reward are taken as parameters since their concrete values are
not shown. -/
def GetReward (rewardTable : List Int) (blockNumberPerEra : Nat)
    (tailReward : Int) (blockNumber : Nat) : Int :=
  let era := blockNumber / blockNumberPerEra
  if h : era < rewardTable.length then rewardTable.get ⟨era, h⟩
  else tailReward

/-! ### Concrete fixtures used by the witnesses -/

def wConfig : Config :=
  { p2p := ⟨7⟩, rpcAddr := "127.0.0.1:55027", httpAddr := "127.0.0.1:65027",
    httpWhiteHost := ["localhost"], httpCors := ["*"] }

def wSvcA : Service :=
  { key := 1, protocols := [10], apis := [⟨"chain", 0⟩],
    startErr := none, stopErr := none }

def wSvcB : Service :=
  { key := 2, protocols := [20], apis := [⟨"pool", 1⟩],
    startErr := some (Err.svc 42), stopErr := none }

def wSvcC : Service :=
  { key := 3, protocols := [], apis := [⟨"dbg", 2⟩],
    startErr := none, stopErr := none }

def wIdleNode : Node :=
  { config := wConfig, serverConfig := ⟨0⟩, server := none,
    services := [wSvcA, wSvcB, wSvcC] }

def wRunningNode : Node :=
  { config := wConfig, serverConfig := ⟨7⟩,
    server := some ⟨⟨7⟩, [10]⟩, services := [wSvcA] }

/-- A service whose Stop hook fails, for the stop-aggregation witness. -/
def wSvcF : Service :=
  { key := 2, protocols := [20], apis := [⟨"pool", 1⟩],
    startErr := none, stopErr := some (Err.svc 9) }

/-- A running node with three services whose second fails to stop. -/
def wStopNode : Node :=
  { config := wConfig, serverConfig := ⟨7⟩,
    server := some ⟨⟨7⟩, [10, 20]⟩, services := [wSvcA, wSvcF, wSvcC] }

/-- A service declaring the same namespace as wSvcA, for the duplicate
namespace witness. -/
def wSvcD : Service :=
  { key := 4, protocols := [], apis := [⟨"chain", 5⟩],
    startErr := none, stopErr := none }

/-- An idle node whose two services declare the same namespace. -/
def wDupNode : Node :=
  { config := wConfig, serverConfig := ⟨0⟩, server := none,
    services := [wSvcA, wSvcD] }

/-- An idle node with a single healthy service, used as the concrete input
for the registration-before-accepting counterexample. -/
def wC4Node : Node :=
  { config := wConfig, serverConfig := ⟨0⟩, server := none,
    services := [wSvcA] }

/-- A running node all of whose services stop cleanly. -/
def wCleanStopNode : Node :=
  { config := wConfig, serverConfig := ⟨7⟩,
    server := some ⟨⟨7⟩, [10]⟩, services := [wSvcA, wSvcC] }

/-! ### Trace predicates formalising claim C4 -/

/-- Whether an event is a namespace registration on either listener. -/
def isRegEvent : Event → Bool
  | Event.regJSON _ => true
  | Event.regHTTP _ => true
  | _ => false

/-- Whether an event marks a listener starting to accept connections. -/
def isAcceptEvent : Event → Bool
  | Event.jsonListen => true
  | Event.httpServe => true
  | _ => false

/-- The ordering property claimed for a Start trace: every registration
event (on either listener) occurs before every accepting event (of either
listener); equivalently, no registration follows an accepting event. -/
def regsBeforeAccepts : List Event → Bool
  | [] => true
  | e :: rest =>
    if isAcceptEvent e then
      rest.all (fun x => !isRegEvent x) && regsBeforeAccepts rest
    else regsBeforeAccepts rest

/-! ### Concrete Go heaps for the config-copy claim -/

def wGoConfig : GoConfig :=
  { rpcAddr := "a", httpAddr := "b",
    httpWhiteHost := ⟨0⟩, httpCors := ⟨1⟩ }

def wGoHeap : GoHeap :=
  { configs := fun _ => wGoConfig,
    slices := fun j => if j = 1 then ["origin"] else ["host"] }

def wGoNode : GoNode := NewGo wGoHeap 5

/-- The heap after the caller mutates the shared backing array of the CORS
slice in place, after New has returned. -/
def wGoHeapMut : GoHeap := writeSliceElem wGoHeap ⟨1⟩ 0 "evil"

/-! ### Helper lemmas about the loops -/

theorem startServicesLoop_all_none (rest : List Service) :
    ∀ i, (∀ s ∈ rest, s.startErr = none) →
      startServicesLoop i rest =
        ((List.range rest.length).map (fun j => Event.svcStart (i + j)), none) := by
  induction rest with
  | nil => intro i _; rfl
  | cons s rest ih =>
    intro i hall
    have hs : s.startErr = none := hall s (List.mem_cons_self _ _)
    have hrest : ∀ t ∈ rest, t.startErr = none :=
      fun t ht => hall t (List.mem_cons_of_mem _ ht)
    simp only [startServicesLoop, hs, ih (i + 1) hrest, List.length_cons,
      List.range_succ_eq_map, List.map_cons, List.map_map, Nat.add_zero,
      Prod.mk.injEq, List.cons.injEq, true_and, and_true]
    apply List.map_congr_left
    intro j _
    simp only [Function.comp_apply]
    congr 1
    omega

theorem startServicesLoop_none_inv (rest : List Service) :
    ∀ i evs, startServicesLoop i rest = (evs, none) →
      evs = (List.range rest.length).map (fun j => Event.svcStart (i + j)) := by
  induction rest with
  | nil =>
    intro i evs h
    simp only [startServicesLoop, Prod.mk.injEq] at h
    simp [← h.1]
  | cons s rest ih =>
    intro i evs h
    simp only [startServicesLoop] at h
    cases hs : s.startErr with
    | some e => rw [hs] at h; simp at h
    | none =>
      rw [hs] at h
      rcases hp : startServicesLoop (i + 1) rest with ⟨evs1, r1⟩
      rw [hp] at h
      simp only [Prod.mk.injEq] at h
      obtain ⟨h1, h2⟩ := h
      subst h2
      have := ih (i + 1) evs1 hp
      subst this
      rw [← h1]
      simp only [List.length_cons, List.range_succ_eq_map, List.map_cons,
        List.map_map, Nat.add_zero, List.cons.injEq, true_and]
      apply List.map_congr_left
      intro j _
      simp only [Function.comp_apply]
      congr 1
      omega

theorem registerAll_none_inv (mk : String → Event) :
    ∀ (apis : List API) (regd : List String) (evs : List Event)
      (regd' : List String),
      registerAll mk apis regd = (evs, regd', none) →
      evs = apis.map (fun a => mk a.Namespace) := by
  intro apis
  induction apis with
  | nil =>
    intro regd evs regd' h
    simp only [registerAll, Prod.mk.injEq] at h
    simp [← h.1]
  | cons a rest ih =>
    intro regd evs regd' h
    simp only [registerAll] at h
    by_cases hmem : a.Namespace ∈ regd
    · rw [if_pos hmem] at h
      simp at h
    · rw [if_neg hmem] at h
      rcases hp : registerAll mk rest (regd ++ [a.Namespace]) with ⟨evs1, regd1, r1⟩
      rw [hp] at h
      simp only [Prod.mk.injEq] at h
      obtain ⟨h1, _, h3⟩ := h
      subst h3
      have := ih (regd ++ [a.Namespace]) evs1 regd1 hp
      subst this
      simp [← h1]

theorem startJSONRPC_none_inv (apis : List API) (jOk : Bool)
    (evs : List Event) (h : startJSONRPC apis jOk = (evs, none)) :
    evs = apis.map (fun a => Event.regJSON a.Namespace) ++ [Event.jsonListen] := by
  simp only [startJSONRPC] at h
  rcases hr : registerAll Event.regJSON apis [] with ⟨evs0, regd, r⟩
  rw [hr] at h
  cases r with
  | some e => simp at h
  | none =>
    cases jOk with
    | false => simp at h
    | true =>
      simp only [if_pos, Prod.mk.injEq] at h
      rw [← h.1, registerAll_none_inv Event.regJSON apis [] evs0 regd hr]

theorem startHTTPRPC_none_inv (apis : List API) (wh cl : List String)
    (hOk : Bool) (evs : List Event)
    (h : startHTTPRPC apis wh cl hOk = (evs, none)) :
    evs = apis.map (fun a => Event.regHTTP a.Namespace) ++ [Event.httpServe] := by
  simp only [startHTTPRPC] at h
  rcases hr : registerAll Event.regHTTP apis [] with ⟨evs0, regd, r⟩
  rw [hr] at h
  cases r with
  | some e => simp at h
  | none =>
    cases hOk with
    | false => simp at h
    | true =>
      simp only [if_pos, Prod.mk.injEq] at h
      rw [← h.1, registerAll_none_inv Event.regHTTP apis [] evs0 regd hr]

theorem startRPC_none_inv (services : List Service) (conf : Config)
    (jOk hOk : Bool) (revs : List Event)
    (h : startRPC services conf jOk hOk = (revs, none)) :
    revs = (aggApis services).map (fun a => Event.regJSON a.Namespace) ++
      [Event.jsonListen] ++
      ((aggApis services).map (fun a => Event.regHTTP a.Namespace) ++
        [Event.httpServe]) := by
  simp only [startRPC] at h
  rcases hj : startJSONRPC (aggApis services) jOk with ⟨evs1, r1⟩
  rw [hj] at h
  cases r1 with
  | some e => simp at h
  | none =>
    rcases hh : startHTTPRPC (aggApis services) conf.httpWhiteHost
        conf.httpCors hOk with ⟨evs2, r2⟩
    rw [hh] at h
    simp only [Prod.mk.injEq] at h
    obtain ⟨h1, h2⟩ := h
    cases r2 with
    | some e => simp at h2
    | none =>
      rw [← h1, startJSONRPC_none_inv _ _ _ hj,
        startHTTPRPC_none_inv _ _ _ _ _ hh]

theorem stopMapInsert_ne_nil (m : List (Nat × Err)) (k : Nat) (v : Err) :
    stopMapInsert m k v ≠ [] := by
  unfold stopMapInsert
  split
  · intro h
    rename_i hany
    rw [List.map_eq_nil_iff] at h
    subst h
    simp at hany
  · simp

theorem stopMapInsert_not_mem (m : List (Nat × Err)) (k : Nat) (v : Err)
    (h : ∀ q ∈ m, q.1 ≠ k) : stopMapInsert m k v = m ++ [(k, v)] := by
  have hc : (m.any fun p => p.1 = k) = false := by
    rw [List.any_eq_false]
    intro q hq
    simp only [decide_eq_true_eq]
    exact h q hq
  simp [stopMapInsert, hc]

theorem stopLoop_events (rest : List Service) :
    ∀ i m, (stopLoop i m rest).1 =
      (List.range rest.length).map (fun j => Event.svcStop (i + j)) := by
  induction rest with
  | nil => intro i m; rfl
  | cons s rest ih =>
    intro i m
    simp only [stopLoop]
    rw [ih (i + 1)]
    simp only [List.length_cons, List.range_succ_eq_map, List.map_cons,
      List.map_map, Nat.add_zero, List.cons.injEq, true_and]
    apply List.map_congr_left
    intro j _
    simp only [Function.comp_apply]
    congr 1
    omega

theorem stopLoop_all_none (rest : List Service) :
    ∀ i m, (∀ s ∈ rest, s.stopErr = none) → (stopLoop i m rest).2 = m := by
  induction rest with
  | nil => intro i m _; rfl
  | cons s rest ih =>
    intro i m hall
    have hs : s.stopErr = none := hall s (List.mem_cons_self _ _)
    simp only [stopLoop, hs]
    exact ih (i + 1) m (fun t ht => hall t (List.mem_cons_of_mem _ ht))

theorem stopLoop_nil_inv (rest : List Service) :
    ∀ i m, (stopLoop i m rest).2 = [] →
      m = [] ∧ ∀ s ∈ rest, s.stopErr = none := by
  induction rest with
  | nil =>
    intro i m h
    exact ⟨h, by simp⟩
  | cons s rest ih =>
    intro i m h
    simp only [stopLoop] at h
    cases hs : s.stopErr with
    | some e =>
      rw [hs] at h
      have := (ih (i + 1) _ h).1
      exact absurd this (stopMapInsert_ne_nil _ _ _)
    | none =>
      rw [hs] at h
      obtain ⟨h1, h2⟩ := ih (i + 1) m h
      refine ⟨h1, ?_⟩
      intro t ht
      rcases List.mem_cons.mp ht with rfl | ht'
      · exact hs
      · exact h2 t ht'

theorem stopLoop_map_nodup (rest : List Service) :
    ∀ i m, (∀ s ∈ rest, ∀ q ∈ m, q.1 ≠ s.key) →
      ((rest.map (fun s => s.key)).Nodup) →
      (stopLoop i m rest).2 =
        m ++ rest.filterMap (fun s => s.stopErr.map (fun e => (s.key, e))) := by
  induction rest with
  | nil => intro i m _ _; simp [stopLoop]
  | cons s rest ih =>
    intro i m hdis hnd
    simp only [List.map_cons, List.nodup_cons] at hnd
    obtain ⟨hnotin, hnd'⟩ := hnd
    cases hs : s.stopErr with
    | none =>
      simp only [stopLoop, hs]
      rw [ih (i + 1) m
        (fun t ht q hq => hdis t (List.mem_cons_of_mem _ ht) q hq) hnd']
      simp [List.filterMap_cons, hs]
    | some e =>
      simp only [stopLoop, hs]
      have hins : stopMapInsert m s.key e = m ++ [(s.key, e)] :=
        stopMapInsert_not_mem m s.key e
          (fun q hq => hdis s (List.mem_cons_self _ _) q hq)
      rw [hins]
      rw [ih (i + 1) (m ++ [(s.key, e)]) ?dis2 hnd']
      · simp [List.filterMap_cons, hs, List.append_assoc]
      case dis2 =>
        intro t ht q hq
        rcases List.mem_append.mp hq with hq' | hq'
        · exact hdis t (List.mem_cons_of_mem _ ht) q hq'
        · simp only [List.mem_singleton] at hq'
          subst hq'
          intro hk
          have hk' : s.key = t.key := hk
          exact hnotin (hk' ▸ List.mem_map_of_mem _ ht)

/-! ### Claim theorems -/

/-- C1: for a node with services A, B, C registered in that order where the
Start hook of B fails with error e, Start invokes the Start hooks of A and B
only (never C), then stops exactly A, exactly once, in start order, stops
the transport, returns e unchanged, and leaves the node idle. -/
theorem C1_partial_start_rollback (n : Node) (A B C : Service) (e : Err)
    (jOk hOk : Bool) (hs : n.server = none) (hsvcs : n.services = [A, B, C])
    (hA : A.startErr = none) (hB : B.startErr = some e) :
    n.Start true jOk hOk =
      ({ n with serverConfig := n.config.p2p }, some e,
        [Event.transportStart, Event.svcStart 0, Event.svcStart 1,
          Event.svcStop 0, Event.transportStop]) ∧
    (n.Start true jOk hOk).1.server = none := by
  have hloop : startServicesLoop 0 [A, B, C] =
      ([Event.svcStart 0, Event.svcStart 1, Event.svcStop 0], some e) := by
    simp [startServicesLoop, hA, hB, List.range_succ]
  have heq : n.Start true jOk hOk =
      ({ n with serverConfig := n.config.p2p }, some e,
        [Event.transportStart, Event.svcStart 0, Event.svcStart 1,
          Event.svcStop 0, Event.transportStop]) := by
    simp [Node.Start, hs, hsvcs, hloop]
  exact ⟨heq, by rw [heq]; exact hs⟩

theorem C1_partial_start_rollback_witness :
    wIdleNode.Start true true true =
      ({ wIdleNode with serverConfig := wIdleNode.config.p2p },
        some (Err.svc 42),
        [Event.transportStart, Event.svcStart 0, Event.svcStart 1,
          Event.svcStop 0, Event.transportStop]) :=
  (C1_partial_start_rollback wIdleNode wSvcA wSvcB wSvcC (Err.svc 42)
    true true rfl rfl rfl rfl).1

/-- C5: on a running node, a further Start returns NodeRunning, Register
returns NodeRunning, and neither call changes the node state. -/
theorem C5_running_rejects (n : Node) (srv : Server) (s : Service)
    (tOk jOk hOk : Bool) (hs : n.server = some srv) :
    n.Start tOk jOk hOk = (n, some Err.nodeRunning, []) ∧
    n.Register s = (n, some Err.nodeRunning) := by
  constructor <;> simp [Node.Start, Node.Register, hs]

theorem C5_running_rejects_witness :
    wRunningNode.Start true true true =
      (wRunningNode, some Err.nodeRunning, []) ∧
    wRunningNode.Register wSvcC = (wRunningNode, some Err.nodeRunning) :=
  C5_running_rejects wRunningNode ⟨⟨7⟩, [10]⟩ wSvcC true true true rfl

/-- C6: on an idle node, if the transport fails to start then Start returns
ServiceStartFailed, the Start hook of no registered service is invoked, and
the node remains idle. -/
theorem C6_transport_start_failure (n : Node) (jOk hOk : Bool)
    (hs : n.server = none) :
    n.Start false jOk hOk =
      ({ n with serverConfig := n.config.p2p }, some Err.serviceStartFailed,
        [Event.transportStart]) ∧
    (n.Start false jOk hOk).1.server = none ∧
    ∀ i, Event.svcStart i ∉ (n.Start false jOk hOk).2.2 := by
  have heq : n.Start false jOk hOk =
      ({ n with serverConfig := n.config.p2p }, some Err.serviceStartFailed,
        [Event.transportStart]) := by
    simp [Node.Start, hs]
  refine ⟨heq, by rw [heq]; exact hs, ?_⟩
  intro i
  rw [heq]
  simp

theorem C6_transport_start_failure_witness :
    wIdleNode.Start false true true =
      ({ wIdleNode with serverConfig := wIdleNode.config.p2p },
        some Err.serviceStartFailed, [Event.transportStart]) :=
  (C6_transport_start_failure wIdleNode true true rfl).1

/-- C7: Restart is observably equal, on every node and environment, to the
composite operation the spec describes: Stop followed by Start, with Start
not attempted and the stop error surfaced when Stop fails. -/
theorem C7_restart_refines_stop_then_start (n : Node) (tOk jOk hOk : Bool) :
    n.Restart tOk jOk hOk = stopThenStartSpec n tOk jOk hOk := by
  unfold Node.Restart stopThenStartSpec
  rcases hstop : n.Stop with ⟨n', r, evs⟩
  cases r with
  | some e => simp
  | none =>
    rcases hstart : n'.Start tOk jOk hOk with ⟨n'', r2, evs2⟩
    cases r2 <;> simp [hstart]

/-- C10: the reward is a pure table lookup by era number, with the tail
reward past the table: proved at the general lookup rule and at the three
boundary points the spec names (block 0, last block of a tabulated era,
first block past the last tabulated era). -/
theorem C10_reward_lookup (tbl : List Int) (per : Nat) (tail : Int)
    (hper : 0 < per) (hlen : 0 < tbl.length) :
    GetReward tbl per tail 0 = tbl.get ⟨0, hlen⟩ ∧
    (∀ (k : Nat) (hk : k < tbl.length),
      GetReward tbl per tail (per * (k + 1) - 1) = tbl.get ⟨k, hk⟩) ∧
    GetReward tbl per tail (per * tbl.length) = tail ∧
    (∀ (b : Nat) (hb : b / per < tbl.length),
      GetReward tbl per tail b = tbl.get ⟨b / per, hb⟩) ∧
    (∀ b : Nat, tbl.length ≤ b / per → GetReward tbl per tail b = tail) := by
  refine ⟨?_, ?_, ?_, ?_, ?_⟩
  · simp [GetReward, Nat.zero_div, hlen]
  · intro k hk
    have hmul : per * (k + 1) = per * k + per := Nat.mul_succ per k
    have e1 : per * (k + 1) - 1 = (per - 1) + per * k := by omega
    have hdiv : (per * (k + 1) - 1) / per = k := by
      rw [e1, Nat.add_mul_div_left _ _ hper, Nat.div_eq_of_lt (by omega)]
      omega
    simp [GetReward, hdiv, hk]
  · have hdiv : per * tbl.length / per = tbl.length :=
      Nat.mul_div_cancel_left tbl.length hper
    simp [GetReward, hdiv]
  · intro b hb
    simp [GetReward, hb]
  · intro b hb
    have hnot : ¬ (b / per < tbl.length) := Nat.not_lt.mpr hb
    simp [GetReward, hnot]

theorem C10_reward_lookup_witness :
    GetReward [5, 3] 2 1 0 = 5 ∧ GetReward [5, 3] 2 1 3 = 3 ∧
    GetReward [5, 3] 2 1 4 = 1 := by
  obtain ⟨h0, hlast, htail, -, -⟩ :=
    C10_reward_lookup [5, 3] 2 1 (by decide) (by decide)
  exact ⟨by simpa using h0, by simpa using hlast 1 (by decide), htail⟩

/-- C2: on a running node, Stop invokes the Stop hook of every registered
service in order, stops the transport unconditionally, clears the service
list and the server reference, returns no error exactly when every service
stopped cleanly, and otherwise returns the aggregate keyed by service
identity (stated for distinct identities, matching the type-keyed map of
the source). -/
theorem C2_stop_aggregation (n : Node) (srv : Server)
    (hs : n.server = some srv) :
    (n.Stop).1.server = none ∧
    (n.Stop).1.services = [] ∧
    (n.Stop).2.2 =
      (List.range n.services.length).map Event.svcStop ++
        [Event.transportStop] ∧
    ((n.Stop).2.1 = none ↔ ∀ s ∈ n.services, s.stopErr = none) ∧
    ((n.services.map (fun s => s.key)).Nodup →
      n.services.filterMap
          (fun s => s.stopErr.map (fun e => (s.key, e))) ≠ [] →
      (n.Stop).2.1 =
        some (Err.stopAgg (n.services.filterMap
          (fun s => s.stopErr.map (fun e => (s.key, e)))))) := by
  rcases hp : stopLoop 0 [] n.services with ⟨sevs, smap⟩
  have hevs : sevs = (List.range n.services.length).map Event.svcStop := by
    have h0 := stopLoop_events n.services 0 []
    rw [hp] at h0
    have h1 : sevs =
        (List.range n.services.length).map (fun j => Event.svcStop (0 + j)) :=
      h0
    rw [h1]
    apply List.map_congr_left
    intro j _
    simp
  have hmapnd : (n.services.map (fun s => s.key)).Nodup →
      smap = n.services.filterMap
        (fun s => s.stopErr.map (fun e => (s.key, e))) := by
    intro hnd
    have h0 := stopLoop_map_nodup n.services 0 []
      (by intro t ht q hq; simp at hq) hnd
    rw [hp] at h0
    simpa using h0
  by_cases hemp : smap.isEmpty
  · have hsmap : smap = [] := List.isEmpty_iff.mp hemp
    have hstop : n.Stop =
        ({ n with services := [], server := none }, none,
          sevs ++ [Event.transportStop]) := by
      simp [Node.Stop, hs, hp, hemp]
    rw [hstop]
    refine ⟨rfl, rfl, by rw [hevs], ?_, ?_⟩
    · subst hsmap
      exact iff_of_true rfl (stopLoop_nil_inv n.services 0 [] (by rw [hp])).2
    · intro hnd hne
      exact absurd (hsmap ▸ hmapnd hnd).symm hne
  · have hstop : n.Stop =
        ({ n with services := [], server := none },
          some (Err.stopAgg smap), sevs ++ [Event.transportStop]) := by
      simp [Node.Stop, hs, hp, hemp]
    rw [hstop]
    refine ⟨rfl, rfl, by rw [hevs], ?_, ?_⟩
    · refine iff_of_false (by simp) ?_
      intro hall
      have h6 := stopLoop_all_none n.services 0 [] hall
      rw [hp] at h6
      have h7 : smap = [] := h6
      exact hemp (by simp [h7])
    · intro hnd _
      rw [hmapnd hnd]

theorem C2_stop_aggregation_witness :
    (wStopNode.Stop).2.2 =
      [Event.svcStop 0, Event.svcStop 1, Event.svcStop 2,
        Event.transportStop] ∧
    (wStopNode.Stop).2.1 = some (Err.stopAgg [(2, Err.svc 9)]) ∧
    (wStopNode.Stop).1.services = [] ∧
    (wStopNode.Stop).1.server = none := by
  obtain ⟨h1, h2, h3, _, h5⟩ :=
    C2_stop_aggregation wStopNode ⟨⟨7⟩, [10, 20]⟩ rfl
  refine ⟨h3.trans rfl, ?_, h2, h1⟩
  have hne : wStopNode.services.filterMap
      (fun s => s.stopErr.map (fun e => (s.key, e))) ≠ [] := by
    intro h
    exact List.cons_ne_nil _ _ h
  exact (h5 (by decide) hne).trans rfl

/-- C3: when every service starts but RPC bootstrap fails (on either
listener, including on a duplicate namespace), Start stops every registered
service and the transport, returns the RPC error, and leaves the node idle. -/
theorem C3_rpc_failure_rollback (n : Node) (jOk hOk : Bool)
    (revs : List Event) (e : Err) (hs : n.server = none)
    (hall : ∀ s ∈ n.services, s.startErr = none)
    (hrpc : startRPC n.services n.config jOk hOk = (revs, some e)) :
    n.Start true jOk hOk =
      ({ n with serverConfig := n.config.p2p }, some e,
        Event.transportStart ::
          ((List.range n.services.length).map Event.svcStart ++ revs ++
            (List.range n.services.length).map Event.svcStop ++
            [Event.transportStop])) ∧
    (n.Start true jOk hOk).1.server = none := by
  have hloop := startServicesLoop_all_none n.services 0 hall
  have hloop' : startServicesLoop 0 n.services =
      ((List.range n.services.length).map Event.svcStart, none) := by
    rw [hloop]
    congr 1
    apply List.map_congr_left
    intro j _
    simp
  have heq : n.Start true jOk hOk =
      ({ n with serverConfig := n.config.p2p }, some e,
        Event.transportStart ::
          ((List.range n.services.length).map Event.svcStart ++ revs ++
            (List.range n.services.length).map Event.svcStop ++
            [Event.transportStop])) := by
    simp [Node.Start, hs, hloop', hrpc]
  exact ⟨heq, by rw [heq]; exact hs⟩

theorem C3_rpc_failure_rollback_witness :
    wDupNode.Start true true true =
      ({ wDupNode with serverConfig := wDupNode.config.p2p },
        some (Err.regFailed "chain"),
        [Event.transportStart, Event.svcStart 0, Event.svcStart 1,
          Event.regJSON "chain", Event.svcStop 0, Event.svcStop 1,
          Event.transportStop]) := by
  have hall : ∀ s ∈ wDupNode.services, s.startErr = none := by
    intro s hs
    simp only [wDupNode, List.mem_cons, List.not_mem_nil, or_false] at hs
    rcases hs with rfl | rfl <;> rfl
  exact (C3_rpc_failure_rollback wDupNode true true [Event.regJSON "chain"]
    (Err.regFailed "chain") rfl hall rfl).1.trans rfl

/-- C4, counterexample: on a node with one healthy service the Start call
succeeds, yet the emitted trace has a registration event (the HTTP
registration) after an accepting event (the raw-socket listener binding):
the claim that both listeners have every namespace registered before either
begins accepting fails on the code, which runs startJSONRPC to completion,
accept loop included, before startHTTPRPC registers anything. -/
theorem C4_counterexample :
    ((wC4Node.Start true true true).2.1).isNone = true ∧
    regsBeforeAccepts ((wC4Node.Start true true true).2.2) = false :=
  ⟨rfl, rfl⟩

/-- C4, amended: during every successful Start the trace is: transport
start, the service starts, all raw-socket registrations, the raw-socket
listener accepting, all HTTP registrations, the HTTP listener accepting.
So each listener has every namespace registered before that listener
begins accepting, but the raw-socket listener begins accepting before the
HTTP listener has registered anything. -/
theorem C4_per_listener_registration_order (n : Node) (tOk jOk hOk : Bool)
    (hs : n.server = none)
    (hok : (n.Start tOk jOk hOk).2.1 = none) :
    (n.Start tOk jOk hOk).2.2 =
      Event.transportStart ::
        ((List.range n.services.length).map Event.svcStart ++
          ((aggApis n.services).map (fun a => Event.regJSON a.Namespace) ++
            [Event.jsonListen] ++
            ((aggApis n.services).map (fun a => Event.regHTTP a.Namespace) ++
              [Event.httpServe]))) := by
  cases tOk with
  | false => simp [Node.Start, hs] at hok
  | true =>
    rcases hl : startServicesLoop 0 n.services with ⟨sevs, sres⟩
    cases sres with
    | some e => simp [Node.Start, hs, hl] at hok
    | none =>
      rcases hr : startRPC n.services n.config jOk hOk with ⟨revs, r⟩
      cases r with
      | some e => simp [Node.Start, hs, hl, hr] at hok
      | none =>
        have hsevs := startServicesLoop_none_inv n.services 0 sevs hl
        have hrevs := startRPC_none_inv n.services n.config jOk hOk revs hr
        simp only [Node.Start, hs, hl, hr, hsevs, hrevs]
        simp [List.append_assoc]

theorem C4_per_listener_registration_order_witness :
    (wC4Node.Start true true true).2.2 =
      [Event.transportStart, Event.svcStart 0, Event.regJSON "chain",
        Event.jsonListen, Event.regHTTP "chain", Event.httpServe] :=
  (C4_per_listener_registration_order wC4Node true true true rfl rfl).trans
    rfl

/-- C8: on a running node whose services all stop cleanly, Restart leaves
the node running with an empty service list, a transport carrying an empty
protocol list, and a trace showing no namespace registration at all (both
listeners get the empty API set). -/
theorem C8_restart_clears_services (n : Node) (srv : Server)
    (hs : n.server = some srv)
    (hstops : ∀ s ∈ n.services, s.stopErr = none) :
    n.Restart true true true =
      ({ config := n.config, serverConfig := n.config.p2p,
         server := some { config := n.config.p2p, protocols := [] },
         services := [] },
       none,
       (List.range n.services.length).map Event.svcStop ++
         [Event.transportStop, Event.transportStart, Event.jsonListen,
           Event.httpServe]) := by
  rcases hp : stopLoop 0 [] n.services with ⟨sevs, smap⟩
  have hsmap : smap = [] := by
    have h6 := stopLoop_all_none n.services 0 [] hstops
    rw [hp] at h6
    exact h6
  have hevs : sevs = (List.range n.services.length).map Event.svcStop := by
    have h0 := stopLoop_events n.services 0 []
    rw [hp] at h0
    have h1 : sevs =
        (List.range n.services.length).map (fun j => Event.svcStop (0 + j)) :=
      h0
    rw [h1]
    apply List.map_congr_left
    intro j _
    simp
  have hstop : n.Stop =
      ({ n with services := [], server := none }, none,
        sevs ++ [Event.transportStop]) := by
    simp [Node.Stop, hs, hp, hsmap]
  have hstart : ({ n with services := [], server := none } : Node).Start
      true true true =
      ({ config := n.config, serverConfig := n.config.p2p,
         server := some { config := n.config.p2p, protocols := [] },
         services := [] }, none,
        [Event.transportStart, Event.jsonListen, Event.httpServe]) := rfl
  simp [Node.Restart, hstop, hstart, hevs]

theorem C8_restart_clears_services_witness :
    wCleanStopNode.Restart true true true =
      ({ config := wCleanStopNode.config,
         serverConfig := wCleanStopNode.config.p2p,
         server := some { config := wCleanStopNode.config.p2p,
                          protocols := [] },
         services := [] },
       none,
       [Event.svcStop 0, Event.svcStop 1, Event.transportStop,
         Event.transportStart, Event.jsonListen, Event.httpServe]) := by
  have hstops : ∀ s ∈ wCleanStopNode.services, s.stopErr = none := by
    intro s hs
    simp only [wCleanStopNode, List.mem_cons, List.not_mem_nil,
      or_false] at hs
    rcases hs with rfl | rfl <;> rfl
  exact (C8_restart_clears_services wCleanStopNode ⟨⟨7⟩, [10]⟩ rfl
    hstops).trans rfl

/-- C9, counterexample: New copies the config struct by value, so the copy
shares the slice backing arrays with the caller; mutating an element of the
CORS slice in place after New changes the configuration the node resolves:
the claim that every later mutation of the caller config leaves the node
config unchanged fails on the code. -/
theorem C9_counterexample :
    wGoNode.resolvedConfig wGoHeap = ("a", "b", ["host"], ["origin"]) ∧
    wGoNode.resolvedConfig wGoHeapMut = ("a", "b", ["host"], ["evil"]) ∧
    wGoNode.resolvedConfig wGoHeapMut ≠ wGoNode.resolvedConfig wGoHeap :=
  ⟨rfl, rfl, by decide⟩

/-- C9, amended: the copy is a top-level (shallow) struct copy, so any
later mutation of the caller config cell itself — reassigning any field,
even replacing a slice header — leaves the configuration the node resolves
unchanged; only in-place writes through a shared slice backing array can
reach the node (as the counterexample shows). -/
theorem C9_shallow_copy_frame (h : GoHeap) (p : Nat)
    (f : GoConfig → GoConfig) :
    (NewGo h p).resolvedConfig (writeCallerConfig h p f) =
      (NewGo h p).resolvedConfig h := rfl

end GoSeele
